import Mathlib

/-!
Verification of the tsbridge service-lifecycle engine against its
natural-language specification.  The Go sources under internal/ are
shallowly embedded: pure functions become Lean functions, external
effects (environment variables, file reads, network listeners, the
tsnet library) are injected as explicit parameters, and Go errors are
modelled with Except / Option.
-/

deriving instance DecidableEq for Except

namespace Tsbridge

/-- A header map, as the ordered association list of canonical header
names to values (Go net/http Header with single-valued entries, which is
all the middleware under verification ever writes). -/
abbrev Headers := List (String × String)

/-- Go Header.Set: replace the value under the key when present,
otherwise append the pair. -/
def setHeader (hs : Headers) (k v : String) : Headers :=
  if hs.any (fun p => p.1 == k) then
    hs.map (fun p => if p.1 == k then (k, v) else p)
  else
    hs ++ [(k, v)]

/-- An HTTP request, reduced to the parts the whois middleware touches. -/
structure Request where
  remoteAddr : String
  headers : Headers
deriving DecidableEq

/-- tailscale.com apitype.UserProfile, the fields read by addUserHeaders. -/
structure UserProfile where
  loginName : String
  displayName : String
  profilePicURL : String
deriving DecidableEq

/-- The node part of a whois response: the string forms of the node
addresses (Go: prefix.Addr().String() for each entry of Node.Addresses). -/
structure WhoisNode where
  addresses : List String
deriving DecidableEq

/-- apitype.WhoIsResponse, the fields read by the middleware. -/
structure WhoIsResponse where
  userProfile : Option UserProfile
  node : Option WhoisNode
deriving DecidableEq

/-- internal/middleware/whois.go sanitizeHeaderValue: the Replacer built
from the pairs CR to empty and LF to empty removes every carriage return
and line feed from the value. -/
def sanitizeHeaderValue (v : String) : String :=
  String.mk (v.data.filter (fun c => c ≠ '\r' ∧ c ≠ '\n'))

/-- internal/middleware/whois.go addUserHeaders. -/
def addUserHeaders (resp : WhoIsResponse) (r : Request) : Request :=
  match resp.userProfile with
  | none => r
  | some up =>
    let r :=
      if up.loginName ≠ "" then
        let loginName := sanitizeHeaderValue up.loginName
        let hs := setHeader (setHeader r.headers "X-Tailscale-User" loginName) "X-Tailscale-Login" loginName
        { r with headers := hs }
      else r
    let r :=
      if up.displayName ≠ "" then
        let hs := setHeader r.headers "X-Tailscale-Name" (sanitizeHeaderValue up.displayName)
        { r with headers := hs }
      else r
    if up.profilePicURL ≠ "" then
      let hs := setHeader r.headers "X-Tailscale-Profile-Picture" (sanitizeHeaderValue up.profilePicURL)
      { r with headers := hs }
    else r

/-- internal/middleware/whois.go addAddressHeaders: the address strings
are joined with commas and set unsanitized. -/
def addAddressHeaders (resp : WhoIsResponse) (r : Request) : Request :=
  match resp.node with
  | none => r
  | some node =>
    if node.addresses = [] then r
    else
      let hs := setHeader r.headers "X-Tailscale-Addresses" (String.intercalate "," node.addresses)
      { r with headers := hs }

/-- The outcome of the WhoIs client call: a Go (resp, err) pair where at
most one side is meaningful.  An error value stands for both lookup
failures and context.DeadlineExceeded timeouts. -/
abbrev LookupResult := Except String (Option WhoIsResponse)

/-- The cache state seen by one request: no cache configured, a
configured cache that misses, or a hit (hits store non-nil responses
only, since performWhoisLookup caches only non-nil results). -/
inductive CacheView where
  | absent
  | miss
  | hit (resp : WhoIsResponse)
deriving DecidableEq

/-- internal/middleware/whois.go performWhoisLookup: returns the request
as mutated in place.  The lookup outcome and the cache view are injected. -/
def performWhoisLookup (cache : CacheView) (lookup : LookupResult) (r : Request) : Request :=
  match cache with
  | .hit resp => addAddressHeaders resp (addUserHeaders resp r)
  | .miss =>
    match lookup with
    | .error _ => r
    | .ok none => r
    | .ok (some resp) => addAddressHeaders resp (addUserHeaders resp r)
  | .absent =>
    match lookup with
    | .error _ => r
    | .ok none => r
    | .ok (some resp) => addAddressHeaders resp (addUserHeaders resp r)

/-- internal/middleware/whois.go Whois middleware body.  A handler is
modelled as a function from the request to the list of requests the
backend receives, so that the wrapped handler records how often and with
what request the next handler runs. -/
def whoisMiddleware (enabled : Bool) (cache : CacheView) (lookup : LookupResult)
    (next : Request → List Request) (r : Request) : List Request :=
  if !enabled then next r
  else next (performWhoisLookup cache lookup r)

/-- internal/config Duration: a time.Duration in nanoseconds together with
the IsSet flag recorded by the decode hook. -/
structure Duration where
  duration : Int
  isSet : Bool
deriving DecidableEq

/-- internal/config ByteSize: a byte count together with its IsSet flag. -/
structure ByteSize where
  value : Int
  isSet : Bool
deriving DecidableEq

/-- internal/config Tailscale.  Go nil slices are Option.none. -/
structure Tailscale where
  oauthClientID : String
  oauthClientIDEnv : String
  oauthClientIDFile : String
  oauthClientSecret : String
  oauthClientSecretEnv : String
  oauthClientSecretFile : String
  authKey : String
  authKeyEnv : String
  authKeyFile : String
  stateDir : String
  defaultTags : Option (List String)
deriving DecidableEq

/-- internal/config Global. -/
structure Global where
  flushInterval : Duration
  accessLog : Option Bool
  trustedProxies : List String
  metricsAddr : String
  responseHeaderTimeout : Duration
  shutdownTimeout : Duration
  writeTimeout : Duration
  idleTimeout : Duration
  readHeaderTimeout : Duration
  maxRequestBodySize : ByteSize
  dialTimeout : Duration
  keepAliveTimeout : Duration
  idleConnTimeout : Duration
  tlsHandshakeTimeout : Duration
  expectContinueTimeout : Duration
  metricsReadHeaderTimeout : Duration
deriving DecidableEq

/-- internal/config Service.  Go nil maps and slices are Option.none and a
present (possibly empty) map or slice is Option.some; pointer fields
(*bool, *ByteSize) are Option. -/
structure Service where
  name : String
  backendAddr : String
  whoisEnabled : Option Bool
  whoisTimeout : Duration
  tlsMode : String
  tags : Option (List String)
  readHeaderTimeout : Duration
  writeTimeout : Duration
  idleTimeout : Duration
  responseHeaderTimeout : Duration
  accessLog : Option Bool
  maxRequestBodySize : Option ByteSize
  funnelEnabled : Option Bool
  ephemeral : Bool
  flushInterval : Duration
  upstreamHeaders : Option (List (String × String))
  downstreamHeaders : Option (List (String × String))
  removeUpstream : Option (List String)
  removeDownstream : Option (List String)
deriving DecidableEq

/-- internal/config Config. -/
structure Config where
  tailscale : Tailscale
  global : Global
  services : List Service
deriving DecidableEq

/-- The process environment and filesystem reads injected into secret
resolution: getenv returns the empty string for unset variables, exactly
as os.Getenv does. -/
structure Env where
  getenv : String → String
  readFile : String → Except String String

/-- Modelled from the spec: ResolveSecretWithFallback lives in a config
source file that is not under src (only its caller resolveSecrets is).
Per the spec, resolution order per secret is: direct value, then file
path, then named env var, then the default env var; the first configured
source that yields a value wins. -/
def ResolveSecretWithFallback (env : Env) (direct envVar fileVar fallbackEnv : String) : Except String String :=
  if direct ≠ "" then .ok direct
  else if fileVar ≠ "" then env.readFile fileVar
  else if envVar ≠ "" then
    let v := env.getenv envVar
    if v ≠ "" then .ok v else .error "environment variable not set"
  else
    let v := env.getenv fallbackEnv
    if v ≠ "" then .ok v else .error "no secret source configured"

/-- One iteration of the resolveSecrets loop of internal/config/config.go:
when an env or file source is configured the direct value is cleared
before resolution and the env/file fields are cleared afterwards;
otherwise an empty direct value falls back to the default env var.
Returns the new (value, envField, fileField) triple of the secret. -/
def resolveSecretField (env : Env) (value envVar fileVar fallbackEnv : String) : Except String (String × String × String) :=
  if envVar ≠ "" ∨ fileVar ≠ "" then
    match ResolveSecretWithFallback env "" envVar fileVar fallbackEnv with
    | .error e => .error e
    | .ok resolved => .ok (resolved, "", "")
  else if value = "" then
    let v := env.getenv fallbackEnv
    if v ≠ "" then .ok (v, envVar, fileVar) else .ok (value, envVar, fileVar)
  else .ok (value, envVar, fileVar)

/-- internal/config/config.go resolveSecrets: processes the OAuth client
ID, the OAuth client secret and the auth key in order. -/
def resolveSecrets (env : Env) (cfg : Config) : Except String Config :=
  match resolveSecretField env cfg.tailscale.oauthClientID cfg.tailscale.oauthClientIDEnv cfg.tailscale.oauthClientIDFile "TS_OAUTH_CLIENT_ID" with
  | .error e => .error e
  | .ok idr =>
    match resolveSecretField env cfg.tailscale.oauthClientSecret cfg.tailscale.oauthClientSecretEnv cfg.tailscale.oauthClientSecretFile "TS_OAUTH_CLIENT_SECRET" with
    | .error e => .error e
    | .ok secr =>
      match resolveSecretField env cfg.tailscale.authKey cfg.tailscale.authKeyEnv cfg.tailscale.authKeyFile "TS_AUTHKEY" with
      | .error e => .error e
      | .ok akr =>
        let ts := { cfg.tailscale with oauthClientID := idr.1, oauthClientIDEnv := idr.2.1, oauthClientIDFile := idr.2.2, oauthClientSecret := secr.1, oauthClientSecretEnv := secr.2.1, oauthClientSecretFile := secr.2.2, authKey := akr.1, authKeyEnv := akr.2.1, authKeyFile := akr.2.2 }
        .ok { cfg with tailscale := ts }

/-- The values of the internal/constants package (not under src).  Only
defaultTLSMode plays a role in the theorems below; it is the string auto
per the spec and the comments in config.go. -/
structure Constants where
  defaultReadHeaderTimeout : Int
  defaultWriteTimeout : Int
  defaultIdleTimeout : Int
  defaultShutdownTimeout : Int
  defaultAccessLogEnabled : Bool
  defaultMaxRequestBodySize : Int
  defaultDialTimeout : Int
  defaultKeepAliveTimeout : Int
  defaultIdleConnTimeout : Int
  defaultTLSHandshakeTimeout : Int
  defaultExpectContinueTimeout : Int
  defaultMetricsReadHeaderTimeout : Int
  defaultWhoisEnabled : Bool
  defaultWhoisTimeout : Int
  defaultTLSMode : String

/-- If the duration is unset, set it to the default and mark it set. -/
def defaultDuration (d : Duration) (v : Int) : Duration :=
  if !d.isSet then ⟨v, true⟩ else d

/-- If the byte size is unset, set it to the default and mark it set. -/
def defaultByteSize (b : ByteSize) (v : Int) : ByteSize :=
  if !b.isSet then ⟨v, true⟩ else b

/-- The per-service part of Config.SetDefaults: whois_enabled,
whois_timeout and tls_mode defaults. -/
def setDefaultsService (K : Constants) (svc : Service) : Service :=
  let w := if svc.whoisEnabled = none then some K.defaultWhoisEnabled else svc.whoisEnabled
  let wt := defaultDuration svc.whoisTimeout K.defaultWhoisTimeout
  let tm := if svc.tlsMode = "" then K.defaultTLSMode else svc.tlsMode
  { svc with whoisEnabled := w, whoisTimeout := wt, tlsMode := tm }

/-- internal/config/config.go Config.SetDefaults. -/
def Config.setDefaults (K : Constants) (c : Config) : Config :=
  let g := c.global
  let g := { g with readHeaderTimeout := defaultDuration g.readHeaderTimeout K.defaultReadHeaderTimeout, writeTimeout := defaultDuration g.writeTimeout K.defaultWriteTimeout, idleTimeout := defaultDuration g.idleTimeout K.defaultIdleTimeout, shutdownTimeout := defaultDuration g.shutdownTimeout K.defaultShutdownTimeout }
  let g := { g with accessLog := if g.accessLog = none then some K.defaultAccessLogEnabled else g.accessLog, maxRequestBodySize := defaultByteSize g.maxRequestBodySize K.defaultMaxRequestBodySize }
  let g := { g with dialTimeout := defaultDuration g.dialTimeout K.defaultDialTimeout, keepAliveTimeout := defaultDuration g.keepAliveTimeout K.defaultKeepAliveTimeout, idleConnTimeout := defaultDuration g.idleConnTimeout K.defaultIdleConnTimeout, tlsHandshakeTimeout := defaultDuration g.tlsHandshakeTimeout K.defaultTLSHandshakeTimeout, expectContinueTimeout := defaultDuration g.expectContinueTimeout K.defaultExpectContinueTimeout, metricsReadHeaderTimeout := defaultDuration g.metricsReadHeaderTimeout K.defaultMetricsReadHeaderTimeout }
  { c with global := g, services := c.services.map (setDefaultsService K) }

/-- The per-service part of Config.Normalize: copy unset timeouts,
access log, flush interval and tags from the global and tailscale
sections.  Go copies the default tags slice before assigning it; with
value semantics the copy is the identity. -/
def normalizeService (c : Config) (svc : Service) : Service :=
  let rht := if !svc.readHeaderTimeout.isSet then c.global.readHeaderTimeout else svc.readHeaderTimeout
  let wt := if !svc.writeTimeout.isSet then c.global.writeTimeout else svc.writeTimeout
  let it := if !svc.idleTimeout.isSet then c.global.idleTimeout else svc.idleTimeout
  let rsp := if !svc.responseHeaderTimeout.isSet then c.global.responseHeaderTimeout else svc.responseHeaderTimeout
  let al := if svc.accessLog = none then c.global.accessLog else svc.accessLog
  let fi := if !svc.flushInterval.isSet then c.global.flushInterval else svc.flushInterval
  let tg := if svc.tags = none ∧ c.tailscale.defaultTags ≠ none then c.tailscale.defaultTags else svc.tags
  { svc with readHeaderTimeout := rht, writeTimeout := wt, idleTimeout := it, responseHeaderTimeout := rsp, accessLog := al, flushInterval := fi, tags := tg }

/-- internal/config/config.go Config.Normalize. -/
def Config.normalize (c : Config) : Config :=
  { c with services := c.services.map (normalizeService c) }

/-- Whether the second char list is an initial segment of the first
(structurally recursive so that concrete instances evaluate in the
kernel). -/
def listStartsWith : List Char → List Char → Bool
  | _, [] => true
  | [], _ :: _ => false
  | c :: cs, d :: ds => c == d && listStartsWith cs ds

/-- Go strings.HasPrefix. -/
def strStartsWith (s pre : String) : Bool :=
  listStartsWith s.data pre.data

/-- Split a char list on a separator char (Go strings.Split). -/
def splitOnChar (sep : Char) : List Char → List (List Char)
  | [] => [[]]
  | c :: rest =>
    let r := splitOnChar sep rest
    if c == sep then [] :: r
    else
      match r with
      | [] => [[c]]
      | h :: t => (c :: h) :: t

/-- Accumulate decimal digits; none on the first non-digit. -/
def parseDigitsAux (acc : Nat) : List Char → Option Nat
  | [] => some acc
  | c :: rest => if c.isDigit then parseDigitsAux (acc * 10 + (c.toNat - 48)) rest else none

/-- Parse a (possibly negative) decimal integer, as strconv does for the
port part of an address; none on an empty or malformed string. -/
def parsePort (s : String) : Option Int :=
  match s.data with
  | [] => none
  | c :: rest =>
    if c == '-' then
      match rest with
      | [] => none
      | _ => (parseDigitsAux 0 rest).map (fun n => -(n : Int))
    else (parseDigitsAux 0 (c :: rest)).map (fun n => (n : Int))

/-- The net-package checks used by validation, injected: whether
net.ResolveTCPAddr, net.ParseCIDR and net.ParseIP succeed on the given
string. -/
structure NetChecks where
  resolveTCPAddr : String → Bool
  parseCIDR : String → Bool
  parseIP : String → Bool

/-- internal/config/config.go validateOAuthSources. -/
def validateOAuthSources (ts : Tailscale) : Except String Unit :=
  if ts.oauthClientID = "" then .error "OAuth client ID must be provided"
  else if ts.oauthClientSecret = "" then .error "OAuth client secret must be provided"
  else .ok ()

/-- internal/config/config.go validateAuthMethodSelection. -/
def validateAuthMethodSelection (ts : Tailscale) : Except String Unit :=
  if ts.authKey ≠ "" ∧ (ts.oauthClientID ≠ "" ∨ ts.oauthClientSecret ≠ "") then
    .error "cannot specify both OAuth and AuthKey credentials"
  else .ok ()

/-- internal/config/config.go Config.validateOAuth. -/
def Config.validateOAuth (c : Config) : Except String Unit :=
  match validateAuthMethodSelection c.tailscale with
  | .error e => .error e
  | .ok _ =>
    if c.tailscale.authKey ≠ "" then .ok ()
    else validateOAuthSources c.tailscale

/-- The trusted-proxies loop of Config.validateGlobal. -/
def validateTrustedProxies (net : NetChecks) : List String → Except String Unit
  | [] => .ok ()
  | p :: rest =>
    if p.data.contains '/' then
      if !net.parseCIDR p then .error "invalid trusted proxy CIDR"
      else validateTrustedProxies net rest
    else
      if !net.parseIP p then .error "invalid trusted proxy IP"
      else validateTrustedProxies net rest

/-- internal/config/config.go Config.validateGlobal. -/
def Config.validateGlobal (net : NetChecks) (c : Config) : Except String Unit :=
  if c.global.readHeaderTimeout.duration < 0 then .error "read_header_timeout cannot be negative"
  else if c.global.writeTimeout.duration < 0 then .error "write_timeout cannot be negative"
  else if c.global.idleTimeout.duration < 0 then .error "idle_timeout cannot be negative"
  else if c.global.shutdownTimeout.duration ≤ 0 then .error "shutdown_timeout must be positive"
  else if c.global.metricsAddr ≠ "" ∧ !net.resolveTCPAddr c.global.metricsAddr then .error "invalid metrics address"
  else validateTrustedProxies net c.global.trustedProxies

/-- The tail of Config.validateService after the backend-address check:
whois timeout, TLS mode, service-level overrides and OAuth tags. -/
def validateServiceRest (c : Config) (svc : Service) : Except String Unit :=
  if (svc.whoisEnabled = none ∨ svc.whoisEnabled = some true) ∧ svc.whoisTimeout.duration < 0 then
    .error "whois_timeout must be non-negative"
  else if svc.tlsMode ≠ "" ∧ svc.tlsMode ≠ "auto" ∧ svc.tlsMode ≠ "off" then
    .error "invalid tls_mode: must be auto or off"
  else if svc.readHeaderTimeout.duration < 0 then .error "read_header_timeout must be non-negative"
  else if svc.writeTimeout.duration < 0 then .error "write_timeout must be non-negative"
  else if svc.idleTimeout.duration < 0 then .error "idle_timeout must be non-negative"
  else if (c.tailscale.oauthClientID ≠ "" ∨ c.tailscale.oauthClientSecret ≠ "") ∧ (svc.tags.getD []).length = 0 then
    .error "service must have at least one tag when using OAuth authentication"
  else .ok ()

/-- internal/config/config.go Config.validateService: a unix:// backend
address only needs a non-empty path; a TCP backend address must satisfy
net.ResolveTCPAddr. -/
def Config.validateService (net : NetChecks) (c : Config) (svc : Service) : Except String Unit :=
  if svc.backendAddr = "" then .error "backend address is required"
  else if strStartsWith svc.backendAddr "unix://" then
    if svc.backendAddr.data.length ≤ 7 then .error "invalid unix socket address: missing path"
    else validateServiceRest c svc
  else
    if !net.resolveTCPAddr svc.backendAddr then .error "invalid backend address"
    else validateServiceRest c svc

/-- The duplicate-name loop of Config.Validate, with the seen set
threaded through. -/
def checkServices (net : NetChecks) (c : Config) (seen : List String) : List Service → Except String Unit
  | [] => .ok ()
  | svc :: rest =>
    if svc.name = "" then .error "service name is required"
    else if svc.name ∈ seen then .error "duplicate service name"
    else
      match Config.validateService net c svc with
      | .error e => .error e
      | .ok _ => checkServices net c (svc.name :: seen) rest

/-- internal/config/config.go Config.Validate. -/
def Config.Validate (net : NetChecks) (c : Config) (provider : String) : Except String Unit :=
  match Config.validateOAuth c with
  | .error e => .error e
  | .ok _ =>
    match Config.validateGlobal net c with
    | .error e => .error e
    | .ok _ =>
      if c.services.length = 0 ∧ provider ≠ "docker" then
        .error "at least one service must be defined"
      else checkServices net c [] c.services

/-- Association-list lookup for string maps (Go map indexing). -/
def lookupKey (m : List (String × String)) (k : String) : Option String :=
  match m with
  | [] => none
  | p :: rest => if p.1 = k then some p.2 else lookupKey rest k

/-- Equality of Go string maps, order-insensitive, with nil treated as
empty. -/
def mapsEqualB (x y : Option (List (String × String))) : Bool :=
  let mx := x.getD []
  let my := y.getD []
  mx.all (fun p => lookupKey my p.1 == some p.2) && my.all (fun p => lookupKey mx p.1 == some p.2)

/-- Equality of Go string slices with nil treated as empty; order
matters, matching the compare tests. -/
def slicesEqualB (x y : Option (List String)) : Bool :=
  x.getD [] == y.getD []

/-- Modelled from the spec: ServiceConfigEqual (internal/config/compare.go
is not under src; only compare_test.go is).  A deep field-by-field
equality of two Service values that treats nil and empty maps and slices
as equal, compares slices in order, and distinguishes nil pointers from
set pointers. -/
def ServiceConfigEqual (a b : Service) : Bool :=
  a.name == b.name && a.backendAddr == b.backendAddr &&
  a.whoisEnabled == b.whoisEnabled && a.whoisTimeout == b.whoisTimeout &&
  a.tlsMode == b.tlsMode && slicesEqualB a.tags b.tags &&
  a.readHeaderTimeout == b.readHeaderTimeout && a.writeTimeout == b.writeTimeout &&
  a.idleTimeout == b.idleTimeout && a.responseHeaderTimeout == b.responseHeaderTimeout &&
  a.accessLog == b.accessLog && a.maxRequestBodySize == b.maxRequestBodySize &&
  a.funnelEnabled == b.funnelEnabled && a.ephemeral == b.ephemeral &&
  a.flushInterval == b.flushInterval &&
  mapsEqualB a.upstreamHeaders b.upstreamHeaders && mapsEqualB a.downstreamHeaders b.downstreamHeaders &&
  slicesEqualB a.removeUpstream b.removeUpstream && slicesEqualB a.removeDownstream b.removeDownstream

/-- Replace nil map and slice fields by empty ones (used to state that
ServiceConfigEqual cannot tell nil from empty). -/
def nilToEmpty (a : Service) : Service :=
  { a with tags := some (a.tags.getD []), upstreamHeaders := some (a.upstreamHeaders.getD []), downstreamHeaders := some (a.downstreamHeaders.getD []), removeUpstream := some (a.removeUpstream.getD []), removeDownstream := some (a.removeDownstream.getD []) }

/-- Go map insertion: overwrite the key when present, append otherwise. -/
def mapInsert (m : List (String × String)) (k v : String) : List (String × String) :=
  if m.any (fun p => p.1 == k) then m.map (fun p => if p.1 == k then (k, v) else p)
  else m ++ [(k, v)]

/-- internal/errors ServiceStartupError, with failure messages keyed by
service name. -/
structure ServiceStartupError where
  total : Nat
  successful : Nat
  failed : Nat
  failures : List (String × String)
deriving DecidableEq

/-- Modelled from the spec: ServiceStartupError.AllFailed (internal/errors
is present in src only through errors_test.go): true exactly when no
service succeeded and the total is positive. -/
def ServiceStartupError.AllFailed (e : ServiceStartupError) : Bool :=
  e.successful == 0 && e.total != 0

/-- The error returned by Registry.StartServices: either the internal
no-services error or the startup aggregate. -/
inductive StartError where
  | internal (msg : String)
  | startup (e : ServiceStartupError)
deriving DecidableEq

/-- The loop of Registry.StartServices: per-service start outcomes are
injected (none means the service started); failures land in the map
keyed by name, successes are counted. -/
def startLoop (start : Service → Option String) (failures : List (String × String)) (succ : Nat) : List Service → List (String × String) × Nat
  | [] => (failures, succ)
  | svc :: rest =>
    match start svc with
    | some e => startLoop start (mapInsert failures svc.name e) succ rest
    | none => startLoop start failures (succ + 1) rest

/-- internal/service/service.go Registry.StartServices. -/
def StartServices (start : Service → Option String) (cfg : Config) : Except StartError Unit :=
  let total := cfg.services.length
  let res := startLoop start [] 0 cfg.services
  if total = 0 then .error (.internal "no services configured")
  else if res.1.length ≠ 0 then .error (.startup ⟨total, res.2, res.1.length, res.1⟩)
  else .ok ()

/-- A tsnet listener, identified by an opaque tag. -/
structure Listener where
  tag : String
deriving DecidableEq

/-- Which listener family Server.Listen selected. -/
inductive ListenerKind where
  | funnel
  | tls
  | plain
deriving DecidableEq

/-- The result of Server.Listen: the listener, its kind, the address the
tsnet server was asked to listen on, and whether the certificate-priming
background task was launched. -/
structure ListenOutcome where
  listener : Listener
  kind : ListenerKind
  addr : String
  warmupLaunched : Bool
deriving DecidableEq

/-- The tsnet effects of Server.Listen, injected: whether the state
directory for the service already holds state, the auth-key resolution
outcome, the tsnet Start outcome, the three listen calls, and the result
of the asynchronous certificate-priming task (which Listen launches but
never waits for). -/
structure TSNetEnv where
  hasExistingState : Bool
  generateOrResolveAuthKey : Except String String
  startResult : Except String Unit
  listenFunnel : String → Except String Listener
  listenTLS : String → Except String Listener
  listenPlain : String → Except String Listener
  primeCertificateResult : Except String Unit

/-- internal/tailscale Server.Listen (the tailscale server source is
embedded in errors_test.go after the document separator).  Hostname,
ephemeral flag and state-directory wiring act only on the injected tsnet
server and are summarized by the env; auth-key resolution runs only when
no state exists.  The listener is then chosen by funnel flag and TLS
mode; in auto mode the certificate-priming task is launched in the
background and its outcome is never consulted. -/
def ServerListen (env : TSNetEnv) (tlsMode : String) (funnelEnabled : Bool) : Except String ListenOutcome :=
  match (if !env.hasExistingState then (match env.generateOrResolveAuthKey with | .error e => (.error ("resolving auth key for service: " ++ e) : Except String Unit) | .ok _ => .ok ()) else .ok ()) with
  | .error e => .error e
  | .ok _ =>
    match env.startResult with
    | .error e => .error ("starting tsnet server for service: " ++ e)
    | .ok _ =>
      if funnelEnabled then
        match env.listenFunnel ":443" with
        | .error e => .error e
        | .ok l => .ok ⟨l, .funnel, ":443", false⟩
      else
        match tlsMode with
        | "auto" =>
          match env.listenTLS ":443" with
          | .error e => .error e
          | .ok l => .ok ⟨l, .tls, ":443", true⟩
        | "off" =>
          match env.listenPlain ":80" with
          | .error e => .error e
          | .ok l => .ok ⟨l, .plain, ":80", false⟩
        | _ => .error "invalid TLS mode"

/-- A registered tsnet server, carrying the outcome its Close call would
have (none means Close succeeds). -/
structure TSNetServer where
  closeResult : Option String
deriving DecidableEq

/-- The serviceServers map of the tailscale Server. -/
abbrev ServiceServers := List (String × TSNetServer)

/-- Map lookup in the serviceServers map. -/
def lookupServer (m : ServiceServers) (name : String) : Option TSNetServer :=
  match m with
  | [] => none
  | p :: rest => if p.1 = name then some p.2 else lookupServer rest name

/-- internal/tailscale Server.CloseService: returns the error (if any)
together with the serviceServers map after the call.  A missing name is
a no-op; a failing Close returns the wrapped error without deleting the
entry; a successful Close deletes the entry. -/
def CloseService (m : ServiceServers) (name : String) : Option String × ServiceServers :=
  match lookupServer m name with
  | none => (none, m)
  | some srv =>
    match srv.closeResult with
    | some e => (some ("closing tsnet server for service: " ++ e), m)
    | none => (none, m.filter (fun p => !(p.1 == name)))

/-- Modelled from the spec: the docker provider's validateBackendAddress
(internal/docker/labels.go is not under src; its behavior is fixed by
TestValidateBackendAddress in part_002).  Splits a host:port address at
the last colon. -/
def splitHostPort (addr : String) : Option (String × String) :=
  let cs := addr.data
  if cs.contains ':' then
    let rev := cs.reverse
    let portRev := rev.takeWhile (fun c => c ≠ ':')
    let rest := rev.drop (portRev.length + 1)
    some (String.mk rest.reverse, String.mk portRev.reverse)
  else none

/-- Modelled from the spec: the docker provider's validateBackendAddress
(internal/docker/labels.go is not under src; its behavior is fixed by the
spec and by TestValidateBackendAddress): empty addresses are rejected;
unix:// addresses must carry an absolute, traversal-free, colon-free
path; anything else must be host:port with a numeric port in 1..65535. -/
def validateBackendAddress (addr : String) : Except String Unit :=
  if addr = "" then .error "backend address cannot be empty"
  else if strStartsWith addr "unix://" then
    let path := addr.data.drop 7
    if path.contains ':' then .error "unix socket cannot have port"
    else if (splitOnChar '/' path).any (fun seg => seg == ['.', '.']) then .error "invalid unix socket path"
    else if !listStartsWith path ['/'] then .error "unix socket path must be absolute"
    else .ok ()
  else if strStartsWith addr "unix:" then .error "unix socket path must start with unix://"
  else
    match splitHostPort addr with
    | none => .error "invalid backend address format"
    | some hp =>
      match parsePort hp.2 with
      | none => .error "invalid port"
      | some p => if p < 1 ∨ p > 65535 then .error "port must be between 1 and 65535" else .ok ()

/-- The parsed command-line arguments of cmd/tsbridge. -/
structure CliArgs where
  configPath : String
  provider : String
  validate : Bool
  help : Bool
  version : Bool
deriving DecidableEq

/-- The effects of one cmd/tsbridge invocation, injected: the flag-parse
outcome, provider creation, config load, the Validate call made by
validateConfig, and the application lifecycle outcomes. -/
structure MainEnv where
  parseResult : Except String CliArgs
  createProviderResult : Except String Unit
  loadResult : Except String Config
  validateResult : Config → Except String Unit
  appCreateResult : Except String Unit
  appStartResult : Except String Unit
  appShutdownResult : Except String Unit

/-- cmd/tsbridge setupCommon: the file provider requires a config path. -/
def setupCommon (args : CliArgs) : Except String Unit :=
  if args.provider = "file" ∧ args.configPath = "" then
    .error "-config flag is required for file provider"
  else .ok ()

/-- cmd/tsbridge validateConfig: setup, provider creation, load, then
Config.Validate; any failure is returned as an error. -/
def validateConfig (env : MainEnv) (args : CliArgs) : Except String Unit :=
  match setupCommon args with
  | .error e => .error e
  | .ok _ =>
    match env.createProviderResult with
    | .error e => .error ("failed to create configuration provider: " ++ e)
    | .ok _ =>
      match env.loadResult with
      | .error e => .error ("failed to load configuration: " ++ e)
      | .ok cfg =>
        match env.validateResult cfg with
        | .error e => .error ("validation failed: " ++ e)
        | .ok _ => .ok ()

/-- cmd/tsbridge run. -/
def run (env : MainEnv) (args : CliArgs) : Except String Unit :=
  if args.help then .ok ()
  else if args.version then .ok ()
  else if args.validate then validateConfig env args
  else
    match setupCommon args with
    | .error e => .error e
    | .ok _ =>
      match env.createProviderResult with
      | .error e => .error ("failed to create configuration provider: " ++ e)
      | .ok _ =>
        match env.appCreateResult with
        | .error e => .error ("failed to create application: " ++ e)
        | .ok _ =>
          match env.appStartResult with
          | .error e => .error ("failed to start application: " ++ e)
          | .ok _ =>
            match env.appShutdownResult with
            | .error e => .error ("shutdown error: " ++ e)
            | .ok _ => .ok ()

/-- cmd/tsbridge main: exit 2 when flag parsing fails, exit 1 when run
returns any error, exit 0 otherwise. -/
def mainExit (env : MainEnv) : Nat :=
  match env.parseResult with
  | .error _ => 2
  | .ok args =>
    match run env args with
    | .error _ => 1
    | .ok _ => 0

/-- An unset Duration. -/
def zeroDuration : Duration := ⟨0, false⟩

/-- An unset ByteSize. -/
def zeroByteSize : ByteSize := ⟨0, false⟩

/-- The zero Tailscale section. -/
def emptyTailscale : Tailscale := ⟨"", "", "", "", "", "", "", "", "", "", none⟩

/-- The zero Global section. -/
def emptyGlobal : Global := ⟨zeroDuration, none, [], "", zeroDuration, zeroDuration, zeroDuration, zeroDuration, zeroDuration, zeroByteSize, zeroDuration, zeroDuration, zeroDuration, zeroDuration, zeroDuration, zeroDuration⟩

/-- The zero Service. -/
def emptyService : Service := ⟨"", "", none, zeroDuration, "", none, zeroDuration, zeroDuration, zeroDuration, zeroDuration, none, none, none, false, zeroDuration, none, none, none, none⟩

/-- Network checks of an environment where every address that validation
looks up resolves (as the concrete addresses used below do in reality). -/
def netAll : NetChecks := ⟨fun _ => true, fun _ => true, fun _ => true⟩

/-- A process environment where only the variable TSB_KEY is set, to the
value W. -/
def envC1 : Env := ⟨fun n => if n = "TSB_KEY" then "W" else "", fun _ => .error "no such file"⟩

/-- A config that sets the auth key both directly (to V) and through the
env var TSB_KEY. -/
def cfgC1 : Config := ⟨{ emptyTailscale with authKey := "V", authKeyEnv := "TSB_KEY" }, emptyGlobal, []⟩

/-- A config that passes Validate while leaving one service TLS mode
empty: auth key set, positive shutdown timeout, one service with a
resolvable backend address and every other field at its zero value. -/
def cfgC6 : Config := ⟨{ emptyTailscale with authKey := "k" }, { emptyGlobal with shutdownTimeout := ⟨1, true⟩ }, [{ emptyService with name := "api", backendAddr := "127.0.0.1:8080" }]⟩

/-- A service whose backend address is a unix socket with traversal
segments. -/
def svcTraversal : Service := { emptyService with name := "bad", backendAddr := "unix://../../../etc/passwd" }

/-- A config with no authentication and no services, used as the
enclosing config of a single-service validation call. -/
def cfgPlain : Config := ⟨emptyTailscale, emptyGlobal, []⟩

/-- A main-invocation environment whose flags parse to a validate-mode
run over the file provider and whose Validate call fails. -/
def envC9 : MainEnv := ⟨.ok ⟨"/etc/tsbridge.toml", "file", true, false, false⟩, .ok (), .ok cfgPlain, fun _ => .error "validation failed", .ok (), .ok (), .ok ()⟩

/-- A tsnet environment with no pre-existing state where auth-key
resolution, Start and every listen call succeed; the listener tag records
the address it was obtained for. -/
def tsnetEnvW : TSNetEnv := ⟨false, .ok "key", .ok (), fun a => .ok ⟨a⟩, fun a => .ok ⟨a⟩, fun a => .ok ⟨a⟩, .ok ()⟩

/-- A serviceServers map holding one server, registered under the name
api, whose Close fails. -/
def serversCloseFail : ServiceServers := [("api", ⟨some "close failed"⟩)]

/-- A whois response whose login name contains a NUL byte. -/
def respNul : WhoIsResponse := ⟨some ⟨String.mk [Char.ofNat 97, Char.ofNat 0, Char.ofNat 98], "", ""⟩, none⟩

/-- A whois response carrying one login name and one node address. -/
def respW : WhoIsResponse := ⟨some ⟨"alice@example.com", "Alice", ""⟩, some ⟨["100.64.0.1"]⟩⟩

/-- An identity request with no headers. -/
def reqW : Request := ⟨"100.64.0.1:33000", []⟩

/-- The failure entries the StartServices loop accumulates over a list
of services: one (name, message) pair per failed start, in order. -/
def failuresOf (start : Service → Option String) (l : List Service) : List (String × String) :=
  l.filterMap (fun svc => (start svc).map (fun e => (svc.name, e)))

/-- How many services of the list start successfully. -/
def successCount (start : Service → Option String) (l : List Service) : Nat :=
  l.countP (fun svc => (start svc).isNone)

/-- A concrete Constants value: the default TLS mode is auto (per the
spec and the comments in config.go); the numeric defaults are irrelevant
to the theorems below. -/
def constW : Constants := ⟨0, 0, 0, 0, true, 0, 0, 0, 0, 0, 0, 0, true, 0, "auto"⟩

theorem mem_setHeader {hs : Headers} {k v : String} {kv : String × String}
    (h : kv ∈ setHeader hs k v) : kv ∈ hs ∨ kv = (k, v) := by
  unfold setHeader at h
  split at h
  · rcases List.mem_map.mp h with ⟨p, hp, he⟩
    by_cases hk : p.1 == k
    · right
      rw [if_pos hk] at he
      exact he.symm
    · left
      rw [if_neg hk] at he
      exact he ▸ hp
  · rcases List.mem_append.mp h with h' | h'
    · exact Or.inl h'
    · right
      simpa using h'

theorem sanitize_no_crlf (v : String) :
    ∀ c ∈ (sanitizeHeaderValue v).data, c ≠ '\r' ∧ c ≠ '\n' := by
  intro c hc
  unfold sanitizeHeaderValue at hc
  have := List.mem_filter.mp hc
  exact of_decide_eq_true this.2

theorem good_setHeader {base hs : Headers} {k v : String} {kv : String × String}
    (hv : ∀ c ∈ v.data, c ≠ '\r' ∧ c ≠ '\n')
    (ih : kv ∈ hs → kv ∈ base ∨ ∀ c ∈ kv.2.data, c ≠ '\r' ∧ c ≠ '\n') :
    kv ∈ setHeader hs k v → kv ∈ base ∨ ∀ c ∈ kv.2.data, c ≠ '\r' ∧ c ≠ '\n' := by
  intro h
  rcases mem_setHeader h with h' | h'
  · exact ih h'
  · right
    rw [h']
    exact hv

theorem mem_addUserHeaders {resp : WhoIsResponse} {r : Request} {kv : String × String}
    (h : kv ∈ (addUserHeaders resp r).headers) :
    kv ∈ r.headers ∨ ∀ c ∈ kv.2.data, c ≠ '\r' ∧ c ≠ '\n' := by
  unfold addUserHeaders at h
  cases hup : resp.userProfile with
  | none =>
    rw [hup] at h
    exact Or.inl h
  | some up =>
    rw [hup] at h
    simp only [] at h
    split_ifs at h with h1 h2 h3 <;>
      first
      | exact Or.inl h
      | refine good_setHeader (sanitize_no_crlf _) (fun hh => ?_) h <;>
        first
        | exact Or.inl hh
        | refine good_setHeader (sanitize_no_crlf _) (fun hh2 => ?_) hh <;>
          first
          | exact Or.inl hh2
          | refine good_setHeader (sanitize_no_crlf _) (fun hh3 => ?_) hh2 <;>
            first
            | exact Or.inl hh3
            | exact good_setHeader (sanitize_no_crlf _) (fun hh4 => Or.inl hh4) hh3

theorem mem_addBoth {resp : WhoIsResponse} {r : Request} {kv : String × String}
    (haddr : ∀ node, resp.node = some node →
       ∀ c ∈ (String.intercalate "," node.addresses).data, c ≠ '\r' ∧ c ≠ '\n')
    (h : kv ∈ (addAddressHeaders resp (addUserHeaders resp r)).headers) :
    kv ∈ r.headers ∨ ∀ c ∈ kv.2.data, c ≠ '\r' ∧ c ≠ '\n' := by
  unfold addAddressHeaders at h
  cases hn : resp.node with
  | none =>
    rw [hn] at h
    exact mem_addUserHeaders h
  | some node =>
    rw [hn] at h
    have h2 : kv ∈ (if node.addresses = [] then addUserHeaders resp r else Request.mk (addUserHeaders resp r).remoteAddr (setHeader (addUserHeaders resp r).headers "X-Tailscale-Addresses" (String.intercalate "," node.addresses))).headers := h
    split_ifs at h2 with he
    · exact mem_addUserHeaders h2
    · exact good_setHeader (haddr node hn) (fun hh => mem_addUserHeaders hh) h2

/-- C5 (amended): every X-Tailscale identity header value the whois
middleware sets is free of CR and LF bytes (provided the node address
strings, which are IP literals, are), because each user-profile value
passes through sanitizeHeaderValue; NUL bytes are not removed. -/
theorem whois_values_no_crlf (cache : CacheView) (lookup : LookupResult) (r : Request)
    (hc : ∀ resp node, cache = CacheView.hit resp → resp.node = some node →
       ∀ c ∈ (String.intercalate "," node.addresses).data, c ≠ '\r' ∧ c ≠ '\n')
    (hl : ∀ resp node, lookup = .ok (some resp) → resp.node = some node →
       ∀ c ∈ (String.intercalate "," node.addresses).data, c ≠ '\r' ∧ c ≠ '\n') :
    ∀ kv ∈ (performWhoisLookup cache lookup r).headers,
      kv ∈ r.headers ∨ ∀ c ∈ kv.2.data, c ≠ '\r' ∧ c ≠ '\n' := by
  intro kv hkv
  unfold performWhoisLookup at hkv
  cases hcc : cache with
  | hit resp =>
    rw [hcc] at hkv
    exact mem_addBoth (fun node hn => hc resp node hcc hn) hkv
  | miss =>
    rw [hcc] at hkv
    cases hll : lookup with
    | error e =>
      rw [hll] at hkv
      exact Or.inl hkv
    | ok o =>
      cases o with
      | none =>
        rw [hll] at hkv
        exact Or.inl hkv
      | some resp =>
        rw [hll] at hkv
        exact mem_addBoth (fun node hn => hl resp node hll hn) hkv
  | absent =>
    rw [hcc] at hkv
    cases hll : lookup with
    | error e =>
      rw [hll] at hkv
      exact Or.inl hkv
    | ok o =>
      cases o with
      | none =>
        rw [hll] at hkv
        exact Or.inl hkv
      | some resp =>
        rw [hll] at hkv
        exact mem_addBoth (fun node hn => hl resp node hll hn) hkv

theorem whois_values_no_crlf_witness :
    ("X-Tailscale-User", "alice@example.com") ∈ (performWhoisLookup .absent (.ok (some respW)) reqW).headers ∧
    "alice@example.com".data.all (fun c => !(c == '\r') && !(c == '\n')) = true := by
  have hmem : ("X-Tailscale-User", "alice@example.com") ∈ (performWhoisLookup .absent (.ok (some respW)) reqW).headers := by
    decide
  have hth := whois_values_no_crlf .absent (.ok (some respW)) reqW
    (fun resp node hcon => by cases hcon)
    (fun resp node hresp hn => by
      have hr : resp = respW := by
        simp only [Except.ok.injEq, Option.some.injEq] at hresp
        exact hresp.symm
      subst hr
      have h5 : (some (⟨["100.64.0.1"]⟩ : WhoisNode)) = some node := hn
      have h6 : node = ⟨["100.64.0.1"]⟩ := by
        simpa using h5.symm
      subst h6
      decide)
    _ hmem
  rcases hth with hin | hno
  · exact absurd hin (by decide)
  · refine ⟨hmem, ?_⟩
    rw [List.all_eq_true]
    intro c hc2
    obtain ⟨hcr, hlf⟩ := hno c hc2
    simp [hcr, hlf]

/-- C5 counterexample: a login name carrying a NUL byte (0x00) is set as
the X-Tailscale-User header value with the NUL byte intact, so the claim
that injected values contain no NUL byte is false. -/
theorem whois_nul_survives :
    lookupKey (performWhoisLookup .absent (.ok (some respNul)) reqW).headers "X-Tailscale-User"
      = some (String.mk [Char.ofNat 97, Char.ofNat 0, Char.ofNat 98]) ∧
    (String.mk [Char.ofNat 97, Char.ofNat 0, Char.ofNat 98]).data.contains (Char.ofNat 0) = true := by
  decide

/-- C4: whatever the outcome of the identity lookup (success, error or
timeout, the latter two being the error case), the whois middleware
passes the request to the next handler exactly once; on a lookup error
the request reaches the backend unchanged, with no identity header
added. -/
theorem whois_next_once (enabled : Bool) (cache : CacheView) (lookup : LookupResult) (r : Request) :
    (whoisMiddleware enabled cache lookup (fun req => [req]) r).length = 1 ∧
    ((cache = CacheView.absent ∨ cache = CacheView.miss) → ∀ e, lookup = .error e →
       whoisMiddleware enabled cache lookup (fun req => [req]) r = [r]) := by
  constructor
  · unfold whoisMiddleware
    cases enabled <;> simp
  · rintro (rfl | rfl) e rfl <;> cases enabled <;> rfl

theorem whois_next_once_witness :
    (whoisMiddleware true .absent (.error "whois lookup timed out") (fun req => [req]) reqW).length = 1 ∧
    whoisMiddleware true .absent (.error "whois lookup timed out") (fun req => [req]) reqW = [reqW] := by
  have h := whois_next_once true .absent (.error "whois lookup timed out") reqW
  exact ⟨h.1, h.2 (Or.inl rfl) "whois lookup timed out" rfl⟩

theorem lookupServer_filter_self (m : ServiceServers) (name : String) :
    lookupServer (m.filter (fun p => !(p.1 == name))) name = none := by
  induction m with
  | nil => rfl
  | cons p rest ih =>
    by_cases hp : p.1 = name
    · simp [List.filter, hp, ih]
    · simp only [List.filter]
      rw [show (!(p.1 == name)) = true by simp [hp]]
      simpa [lookupServer, hp] using ih

theorem lookupServer_filter_other (m : ServiceServers) (name k : String) (hk : k ≠ name) :
    lookupServer (m.filter (fun p => !(p.1 == name))) k = lookupServer m k := by
  induction m with
  | nil => rfl
  | cons p rest ih =>
    by_cases hp : p.1 = name
    · have hpk : p.1 ≠ k := by
        rw [hp]
        exact fun h => hk h.symm
      simp only [List.filter]
      rw [show (!(p.1 == name)) = false by simp [hp]]
      simpa [lookupServer, hpk] using ih
    · simp only [List.filter]
      rw [show (!(p.1 == name)) = true by simp [hp]]
      by_cases hpk : p.1 = k
      · simp [lookupServer, hpk]
      · simpa [lookupServer, hpk] using ih

/-- C10 (amended): CloseService on an unregistered name returns nil and
leaves the map unchanged; on a registered name whose tsnet Close
succeeds it removes exactly that entry, so a second call returns nil; on
a registered name whose Close fails it returns the wrapped error and the
entry stays registered. -/
theorem closeService_spec (m : ServiceServers) (name : String) :
    (lookupServer m name = none → CloseService m name = (none, m)) ∧
    (∀ srv, lookupServer m name = some srv → srv.closeResult = none →
       CloseService m name = (none, m.filter (fun p => !(p.1 == name))) ∧
       lookupServer (m.filter (fun p => !(p.1 == name))) name = none ∧
       CloseService (m.filter (fun p => !(p.1 == name))) name = (none, m.filter (fun p => !(p.1 == name))) ∧
       (∀ k, k ≠ name → lookupServer (m.filter (fun p => !(p.1 == name))) k = lookupServer m k)) ∧
    (∀ srv e, lookupServer m name = some srv → srv.closeResult = some e →
       CloseService m name = (some ("closing tsnet server for service: " ++ e), m)) := by
  have hred : ∀ srv, lookupServer m name = some srv →
      CloseService m name = (match srv.closeResult with
        | some e => (some ("closing tsnet server for service: " ++ e), m)
        | none => (none, m.filter (fun p => !(p.1 == name)))) := by
    intro srv h
    unfold CloseService
    rw [h]
  refine ⟨?_, ?_, ?_⟩
  · intro h
    unfold CloseService
    rw [h]
  · intro srv h hclose
    have h2 := hred srv h
    rw [hclose] at h2
    refine ⟨h2, lookupServer_filter_self m name, ?_, ?_⟩
    · unfold CloseService
      rw [lookupServer_filter_self m name]
    · intro k hk
      exact lookupServer_filter_other m name k hk
  · intro srv e h hclose
    have h2 := hred srv h
    rw [hclose] at h2
    exact h2

theorem closeService_spec_witness :
    CloseService [("api", (⟨none⟩ : TSNetServer))] "api" = (none, []) ∧
    CloseService [] "api" = (none, ([] : ServiceServers)) := by
  have h := closeService_spec [("api", (⟨none⟩ : TSNetServer))] "api"
  have h2 := (h.2.1 ⟨none⟩ rfl rfl)
  have h3 := closeService_spec ([] : ServiceServers) "api"
  exact ⟨h2.1, h3.1 rfl⟩

/-- C10 counterexample: with one server registered under the name api
whose Close fails, CloseService returns an error and leaves the entry in
place, and the second call returns an error again rather than nil; so
the claim that a registered entry is always closed and removed (making
the second call return nil) is false. -/
theorem closeService_close_error_persists :
    (CloseService serversCloseFail "api").1 ≠ none ∧
    (CloseService serversCloseFail "api").2 = serversCloseFail ∧
    (CloseService (CloseService serversCloseFail "api").2 "api").1 ≠ none := by
  decide

/-- C2: Server.Listen selects the listener solely by the funnel flag and
the TLS mode: funnel gives the public-tunnel listener on TCP 443 with no
warm-up; auto gives the auto-TLS listener on TCP 443 and launches the
certificate warm-up task; off gives the plain listener on TCP 80; and
the warm-up outcome never influences what Listen returns. -/
theorem listen_selection (env : TSNetEnv) (tlsMode : String)
    (hstart : env.startResult = .ok ())
    (hauth : env.hasExistingState = true ∨ ∃ k, env.generateOrResolveAuthKey = .ok k) :
    (ServerListen env tlsMode true = (env.listenFunnel ":443").map (fun l => ⟨l, .funnel, ":443", false⟩)) ∧
    (ServerListen env "auto" false = (env.listenTLS ":443").map (fun l => ⟨l, .tls, ":443", true⟩)) ∧
    (ServerListen env "off" false = (env.listenPlain ":80").map (fun l => ⟨l, .plain, ":80", false⟩)) ∧
    (∀ p m f, ServerListen { env with primeCertificateResult := p } m f = ServerListen env m f) := by
  have hae : (if !env.hasExistingState then (match env.generateOrResolveAuthKey with | .error e => (.error ("resolving auth key for service: " ++ e) : Except String Unit) | .ok _ => .ok ()) else .ok ()) = (.ok () : Except String Unit) := by
    rcases hauth with h | ⟨k, hk⟩
    · rw [h]
      rfl
    · cases hh : env.hasExistingState
      · rw [hk]
        rfl
      · rfl
  refine ⟨?_, ?_, ?_, ?_⟩
  · unfold ServerListen
    rw [hae]
    show (match env.startResult with | .error e => (.error ("starting tsnet server for service: " ++ e) : Except String ListenOutcome) | .ok _ => (match env.listenFunnel ":443" with | .error e => .error e | .ok l => .ok ⟨l, .funnel, ":443", false⟩)) = (env.listenFunnel ":443").map (fun l => ⟨l, .funnel, ":443", false⟩)
    rw [hstart]
    show (match env.listenFunnel ":443" with | .error e => (.error e : Except String ListenOutcome) | .ok l => .ok ⟨l, .funnel, ":443", false⟩) = (env.listenFunnel ":443").map (fun l => ⟨l, .funnel, ":443", false⟩)
    cases env.listenFunnel ":443" <;> rfl
  · unfold ServerListen
    rw [hae]
    show (match env.startResult with | .error e => (.error ("starting tsnet server for service: " ++ e) : Except String ListenOutcome) | .ok _ => (match env.listenTLS ":443" with | .error e => .error e | .ok l => .ok ⟨l, .tls, ":443", true⟩)) = (env.listenTLS ":443").map (fun l => ⟨l, .tls, ":443", true⟩)
    rw [hstart]
    show (match env.listenTLS ":443" with | .error e => (.error e : Except String ListenOutcome) | .ok l => .ok ⟨l, .tls, ":443", true⟩) = (env.listenTLS ":443").map (fun l => ⟨l, .tls, ":443", true⟩)
    cases env.listenTLS ":443" <;> rfl
  · unfold ServerListen
    rw [hae]
    show (match env.startResult with | .error e => (.error ("starting tsnet server for service: " ++ e) : Except String ListenOutcome) | .ok _ => (match env.listenPlain ":80" with | .error e => .error e | .ok l => .ok ⟨l, .plain, ":80", false⟩)) = (env.listenPlain ":80").map (fun l => ⟨l, .plain, ":80", false⟩)
    rw [hstart]
    show (match env.listenPlain ":80" with | .error e => (.error e : Except String ListenOutcome) | .ok l => .ok ⟨l, .plain, ":80", false⟩) = (env.listenPlain ":80").map (fun l => ⟨l, .plain, ":80", false⟩)
    cases env.listenPlain ":80" <;> rfl
  · intro p m f
    rfl

theorem listen_selection_witness :
    ServerListen tsnetEnvW "auto" true = .ok ⟨⟨":443"⟩, .funnel, ":443", false⟩ ∧
    ServerListen tsnetEnvW "auto" false = .ok ⟨⟨":443"⟩, .tls, ":443", true⟩ ∧
    ServerListen tsnetEnvW "off" false = .ok ⟨⟨":80"⟩, .plain, ":80", false⟩ := by
  have h := listen_selection tsnetEnvW "auto" rfl (Or.inr ⟨"key", rfl⟩)
  exact ⟨h.1, h.2.1, h.2.2.1⟩

/-- C9 (amended): the process exits 2 only when flag parsing fails; any
error from run, including a configuration-validation failure under the
validate flag, exits 1; a clean run exits 0. -/
theorem mainExit_codes (env : MainEnv) :
    (∀ e, env.parseResult = .error e → mainExit env = 2) ∧
    (∀ args, env.parseResult = .ok args →
       ((∃ e, run env args = .error e) → mainExit env = 1) ∧
       (run env args = .ok () → mainExit env = 0) ∧
       (args.validate = true → args.help = false → args.version = false →
          setupCommon args = .ok () → env.createProviderResult = .ok () →
          ∀ cfg e2, env.loadResult = .ok cfg → env.validateResult cfg = .error e2 →
            mainExit env = 1)) := by
  constructor
  · intro e he
    unfold mainExit
    rw [he]
  · intro args ha
    have hm : mainExit env = (match run env args with | .error _ => 1 | .ok _ => 0) := by
      unfold mainExit
      rw [ha]
    refine ⟨?_, ?_, ?_⟩
    · rintro ⟨e, he⟩
      rw [hm, he]
    · intro h
      rw [hm, h]
    · intro hv hh hver hsetup hcp cfg e2 hload hval
      have hrun : run env args = .error ("validation failed: " ++ e2) := by
        unfold run validateConfig
        rw [hh, hver, hv, hsetup, hcp, hload]
        show (match env.validateResult cfg with | .error e => (.error ("validation failed: " ++ e) : Except String Unit) | .ok _ => .ok ()) = .error ("validation failed: " ++ e2)
        rw [hval]
      rw [hm, hrun]

theorem mainExit_codes_witness : mainExit envC9 = 1 := by
  have h := (mainExit_codes envC9).2 ⟨"/etc/tsbridge.toml", "file", true, false, false⟩ rfl
  exact h.2.2 rfl rfl rfl (by decide) rfl cfgPlain "validation failed" rfl rfl

/-- C9 counterexample: with flags that parse successfully into validate
mode over the file provider and a Validate call that fails, main exits
with code 1, not 2; exit code 2 is produced only by flag-parse failures. -/
theorem validate_exit_code_one : mainExit envC9 = 1 ∧ mainExit envC9 ≠ 2 := by
  decide

/-- C7 (amended): the docker provider's backend-address validator
rejects port 0, ports above 65535, and unix:// paths that are relative
or contain a dot-dot traversal segment: every accepted non-unix address
has a numeric port in 1..65535 and every accepted unix:// address has an
absolute path free of dot-dot segments.  Config.validateService performs
no such checks: it accepts any unix:// address with a non-empty path and
delegates TCP addresses to net.ResolveTCPAddr. -/
theorem validateBackendAddress_sound (addr : String) (h : validateBackendAddress addr = .ok ()) :
    (strStartsWith addr "unix://" = true →
       (splitOnChar '/' (addr.data.drop 7)).all (fun seg => !(seg == ['.', '.'])) = true ∧
       listStartsWith (addr.data.drop 7) ['/'] = true) ∧
    (strStartsWith addr "unix://" = false →
       ∃ hp, splitHostPort addr = some hp ∧ ∃ p, parsePort hp.2 = some p ∧ 1 ≤ p ∧ p ≤ 65535) := by
  unfold validateBackendAddress at h
  by_cases h0 : addr = ""
  · rw [if_pos h0] at h
    simp at h
  rw [if_neg h0] at h
  by_cases h1 : strStartsWith addr "unix://"
  · rw [if_pos h1] at h
    have h' : (if (addr.data.drop 7).contains ':' then (.error "unix socket cannot have port" : Except String Unit) else if (splitOnChar '/' (addr.data.drop 7)).any (fun seg => seg == ['.', '.']) then .error "invalid unix socket path" else if !listStartsWith (addr.data.drop 7) ['/'] then .error "unix socket path must be absolute" else .ok ()) = .ok () := h
    constructor
    · intro _
      split_ifs at h' with hc hdd habs
      constructor
      · rw [List.all_eq_true]
        intro seg hseg
        rw [Bool.not_eq_true']
        by_contra hne
        rw [Bool.not_eq_false] at hne
        exact hdd (List.any_eq_true.mpr ⟨seg, hseg, hne⟩)
      · simp only [Bool.not_eq_true, Bool.not_eq_false'] at habs
        exact habs
    · intro hcontra
      rw [h1] at hcontra
      cases hcontra
  · rw [if_neg h1] at h
    constructor
    · intro hcontra
      exact absurd hcontra h1
    · intro _
      by_cases h2 : strStartsWith addr "unix:"
      · rw [if_pos h2] at h
        simp at h
      rw [if_neg h2] at h
      cases hsp : splitHostPort addr with
      | none =>
        rw [hsp] at h
        simp at h
      | some hp =>
        rw [hsp] at h
        have h' : (match parsePort hp.2 with | none => (.error "invalid port" : Except String Unit) | some p => if p < 1 ∨ p > 65535 then .error "port must be between 1 and 65535" else .ok ()) = .ok () := h
        cases hpp : parsePort hp.2 with
        | none =>
          rw [hpp] at h'
          simp at h'
        | some p =>
          rw [hpp] at h'
          have h2i : (if p < 1 ∨ p > 65535 then (.error "port must be between 1 and 65535" : Except String Unit) else .ok ()) = .ok () := h'
          split_ifs at h2i with hrange
          push_neg at hrange
          exact ⟨hp, rfl, p, hpp, by omega, by omega⟩

theorem validateBackendAddress_sound_witness :
    (strStartsWith "unix:///var/run/app.sock" "unix://" = true →
       (splitOnChar '/' ("unix:///var/run/app.sock".data.drop 7)).all (fun seg => !(seg == ['.', '.'])) = true ∧
       listStartsWith ("unix:///var/run/app.sock".data.drop 7) ['/'] = true) ∧
    (strStartsWith "unix:///var/run/app.sock" "unix://" = false →
       ∃ hp, splitHostPort "unix:///var/run/app.sock" = some hp ∧ ∃ p, parsePort hp.2 = some p ∧ 1 ≤ p ∧ p ≤ 65535) := by
  exact validateBackendAddress_sound "unix:///var/run/app.sock" (by decide)

/-- C7 counterexample: Config.validateService accepts a unix:// backend
address made of dot-dot traversal segments (its unix branch only
requires a non-empty path), while the docker label validator rejects it;
so the claim that every Service submitted to configuration validation
has such addresses rejected is false. -/
theorem validateService_accepts_unix_traversal :
    Config.validateService netAll cfgPlain svcTraversal = .ok () ∧
    validateBackendAddress "unix://../../../etc/passwd" ≠ .ok () ∧
    validateBackendAddress "localhost:0" ≠ .ok () ∧
    validateBackendAddress "localhost:65536" ≠ .ok () := by
  decide

theorem resolveSecretField_spec (env : Env) (value envVar fileVar fb : String)
    (out : String × String × String)
    (h : resolveSecretField env value envVar fileVar fb = .ok out) :
    out.2.1 = "" ∧ out.2.2 = "" ∧
    (envVar = "" → fileVar = "" → value ≠ "" → out.1 = value) ∧
    ((envVar ≠ "" ∨ fileVar ≠ "") → ResolveSecretWithFallback env "" envVar fileVar fb = .ok out.1) := by
  unfold resolveSecretField at h
  by_cases hcond : envVar ≠ "" ∨ fileVar ≠ ""
  · rw [if_pos hcond] at h
    cases hr : ResolveSecretWithFallback env "" envVar fileVar fb with
    | error e =>
      rw [hr] at h
      simp at h
    | ok resolved =>
      rw [hr] at h
      have hout : (resolved, "", "") = out := by
        simpa using h
      refine ⟨?_, ?_, ?_, ?_⟩
      · rw [← hout]
      · rw [← hout]
      · intro he hf _
        exact absurd hcond (by simp [he, hf])
      · intro _
        rw [← hout]
  · rw [if_neg hcond] at h
    push_neg at hcond
    by_cases hval : value = ""
    · rw [if_pos hval] at h
      have hlet : (if env.getenv fb ≠ "" then (.ok (env.getenv fb, envVar, fileVar) : Except String (String × String × String)) else .ok (value, envVar, fileVar)) = .ok out := h
      split_ifs at hlet with hg
      · have hout : (env.getenv fb, envVar, fileVar) = out := by
          simpa using hlet
        refine ⟨?_, ?_, ?_, ?_⟩
        · rw [← hout]
          exact hcond.1
        · rw [← hout]
          exact hcond.2
        · intro _ _ hv
          exact absurd hval hv
        · intro hor
          rcases hor with ho | ho
          · exact absurd hcond.1 ho
          · exact absurd hcond.2 ho
      · have hout : (value, envVar, fileVar) = out := by
          simpa using hlet
        refine ⟨?_, ?_, ?_, ?_⟩
        · rw [← hout]
          exact hcond.1
        · rw [← hout]
          exact hcond.2
        · intro _ _ hv
          exact absurd hval hv
        · intro hor
          rcases hor with ho | ho
          · exact absurd hcond.1 ho
          · exact absurd hcond.2 ho
    · rw [if_neg hval] at h
      have hout : (value, envVar, fileVar) = out := by
        simpa using h
      refine ⟨?_, ?_, ?_, ?_⟩
      · rw [← hout]
        exact hcond.1
      · rw [← hout]
        exact hcond.2
      · intro _ _ _
        rw [← hout]
      · intro hor
        rcases hor with ho | ho
        · exact absurd hcond.1 ho
        · exact absurd hcond.2 ho

/-- C1 (amended): a secret's direct value is preserved only when no env
or file source is configured for it; when an env or file source is
configured, resolveSecrets clears the direct value and resolves the
secret from file, then named env var, then the default env var; after a
successful resolution all env and file indirection fields are zeroed. -/
theorem resolveSecrets_spec (env : Env) (c c' : Config) (h : resolveSecrets env c = .ok c') :
    (c.tailscale.oauthClientIDEnv = "" → c.tailscale.oauthClientIDFile = "" → c.tailscale.oauthClientID ≠ "" → c'.tailscale.oauthClientID = c.tailscale.oauthClientID) ∧
    (c.tailscale.oauthClientSecretEnv = "" → c.tailscale.oauthClientSecretFile = "" → c.tailscale.oauthClientSecret ≠ "" → c'.tailscale.oauthClientSecret = c.tailscale.oauthClientSecret) ∧
    (c.tailscale.authKeyEnv = "" → c.tailscale.authKeyFile = "" → c.tailscale.authKey ≠ "" → c'.tailscale.authKey = c.tailscale.authKey) ∧
    ((c.tailscale.authKeyEnv ≠ "" ∨ c.tailscale.authKeyFile ≠ "") → ResolveSecretWithFallback env "" c.tailscale.authKeyEnv c.tailscale.authKeyFile "TS_AUTHKEY" = .ok c'.tailscale.authKey) ∧
    c'.tailscale.oauthClientIDEnv = "" ∧ c'.tailscale.oauthClientIDFile = "" ∧
    c'.tailscale.oauthClientSecretEnv = "" ∧ c'.tailscale.oauthClientSecretFile = "" ∧
    c'.tailscale.authKeyEnv = "" ∧ c'.tailscale.authKeyFile = "" := by
  unfold resolveSecrets at h
  cases h1 : resolveSecretField env c.tailscale.oauthClientID c.tailscale.oauthClientIDEnv c.tailscale.oauthClientIDFile "TS_OAUTH_CLIENT_ID" with
  | error e =>
    rw [h1] at h
    simp at h
  | ok idr =>
    rw [h1] at h
    cases h2 : resolveSecretField env c.tailscale.oauthClientSecret c.tailscale.oauthClientSecretEnv c.tailscale.oauthClientSecretFile "TS_OAUTH_CLIENT_SECRET" with
    | error e =>
      rw [h2] at h
      simp at h
    | ok secr =>
      rw [h2] at h
      cases h3 : resolveSecretField env c.tailscale.authKey c.tailscale.authKeyEnv c.tailscale.authKeyFile "TS_AUTHKEY" with
      | error e =>
        rw [h3] at h
        simp at h
      | ok akr =>
        rw [h3] at h
        have hc' : ({ c with tailscale := { c.tailscale with oauthClientID := idr.1, oauthClientIDEnv := idr.2.1, oauthClientIDFile := idr.2.2, oauthClientSecret := secr.1, oauthClientSecretEnv := secr.2.1, oauthClientSecretFile := secr.2.2, authKey := akr.1, authKeyEnv := akr.2.1, authKeyFile := akr.2.2 } } : Config) = c' := by
          simpa using h
        obtain ⟨hid1, hid2, hid3, hid4⟩ := resolveSecretField_spec env _ _ _ _ idr h1
        obtain ⟨hsec1, hsec2, hsec3, hsec4⟩ := resolveSecretField_spec env _ _ _ _ secr h2
        obtain ⟨hak1, hak2, hak3, hak4⟩ := resolveSecretField_spec env _ _ _ _ akr h3
        rw [← hc']
        exact ⟨fun he hf hv => hid3 he hf hv, fun he hf hv => hsec3 he hf hv, fun he hf hv => hak3 he hf hv, fun hor => hak4 hor, hid1, hid2, hsec1, hsec2, hak1, hak2⟩

theorem resolveSecrets_spec_witness :
    (resolveSecrets envC1 cfgC1).map (fun c => c.tailscale.authKey) = .ok "W" ∧
    ResolveSecretWithFallback envC1 "" cfgC1.tailscale.authKeyEnv cfgC1.tailscale.authKeyFile "TS_AUTHKEY" = .ok "W" := by
  have hres : resolveSecrets envC1 cfgC1 = .ok ⟨{ emptyTailscale with authKey := "W" }, emptyGlobal, []⟩ := by
    decide
  have h := resolveSecrets_spec envC1 cfgC1 ⟨{ emptyTailscale with authKey := "W" }, emptyGlobal, []⟩ hres
  have h4 := h.2.2.2.1 (Or.inl (by decide))
  exact ⟨by rw [hres]; rfl, h4⟩

/-- C1 counterexample: with the auth key set directly to V and also
configured from the env var TSB_KEY (whose value is W), resolveSecrets
discards the direct value and resolves W, so the claim that the direct
value always wins is false. -/
theorem resolveSecrets_direct_overridden :
    (resolveSecrets envC1 cfgC1).map (fun c => c.tailscale.authKey) = .ok "W" ∧
    cfgC1.tailscale.authKey = "V" ∧ "W" ≠ "V" := by
  decide

theorem checkServices_ok (net : NetChecks) (c : Config) :
    ∀ (l : List Service) (seen : List String), checkServices net c seen l = .ok () →
      (l.map (fun s => s.name)).Nodup ∧
      (∀ s ∈ l, s.name ∉ seen) ∧
      (∀ s ∈ l, Config.validateService net c s = .ok ()) := by
  intro l
  induction l with
  | nil =>
    intro seen _
    refine ⟨List.nodup_nil, by simp, by simp⟩
  | cons svc rest ih =>
    intro seen h
    unfold checkServices at h
    by_cases h0 : svc.name = ""
    · rw [if_pos h0] at h
      simp at h
    rw [if_neg h0] at h
    by_cases h1 : svc.name ∈ seen
    · rw [if_pos h1] at h
      simp at h
    rw [if_neg h1] at h
    cases hv : Config.validateService net c svc with
    | error e =>
      rw [hv] at h
      simp at h
    | ok u =>
      rw [hv] at h
      have h' : checkServices net c (svc.name :: seen) rest = .ok () := h
      obtain ⟨hnd, hnotin, hval⟩ := ih (svc.name :: seen) h'
      refine ⟨?_, ?_, ?_⟩
      · rw [List.map_cons, List.nodup_cons]
        constructor
        · intro hmem
          rcases List.mem_map.mp hmem with ⟨s, hs, heq⟩
          exact hnotin s hs (heq ▸ List.mem_cons_self _ _)
        · exact hnd
      · intro s hs
        rcases List.mem_cons.mp hs with rfl | hs'
        · exact h1
        · intro hcon
          exact hnotin s hs' (List.mem_cons_of_mem _ hcon)
      · intro s hs
        rcases List.mem_cons.mp hs with rfl | hs'
        · cases u
          exact hv
        · exact hval s hs'

theorem validateService_rest_of_ok {net : NetChecks} {c : Config} {svc : Service}
    (h : Config.validateService net c svc = .ok ()) :
    validateServiceRest c svc = .ok () := by
  unfold Config.validateService at h
  split_ifs at h
  all_goals first
    | exact h
    | simp at h

theorem validateServiceRest_tls {c : Config} {svc : Service}
    (h : validateServiceRest c svc = .ok ()) :
    svc.tlsMode = "auto" ∨ svc.tlsMode = "off" ∨ svc.tlsMode = "" := by
  unfold validateServiceRest at h
  split_ifs at h with h1 h2
  all_goals try simp at h
  by_cases e1 : svc.tlsMode = ""
  · exact Or.inr (Or.inr e1)
  by_cases e2 : svc.tlsMode = "auto"
  · exact Or.inl e2
  by_cases e3 : svc.tlsMode = "off"
  · exact Or.inr (Or.inl e3)
  exact absurd ⟨e1, e2, e3⟩ h2

theorem validate_ok_checkServices {net : NetChecks} {c : Config} {provider : String}
    (h : Config.Validate net c provider = .ok ()) :
    checkServices net c [] c.services = .ok () := by
  unfold Config.Validate at h
  cases ho : Config.validateOAuth c with
  | error e =>
    rw [ho] at h
    simp at h
  | ok u =>
    rw [ho] at h
    cases hg : Config.validateGlobal net c with
    | error e =>
      rw [hg] at h
      simp at h
    | ok u2 =>
      rw [hg] at h
      have h' : (if c.services.length = 0 ∧ provider ≠ "docker" then (.error "at least one service must be defined" : Except String Unit) else checkServices net c [] c.services) = .ok () := h
      split_ifs at h' with hcond
      exact h'

theorem setDefaults_services_tls {K : Constants} (hK : K.defaultTLSMode = "auto") (c : Config) :
    ∀ svc ∈ (Config.setDefaults K c).services, svc.tlsMode ≠ "" := by
  intro svc hsvc
  have hmap : (Config.setDefaults K c).services = c.services.map (setDefaultsService K) := rfl
  rw [hmap] at hsvc
  rcases List.mem_map.mp hsvc with ⟨s0, _, rfl⟩
  show (setDefaultsService K s0).tlsMode ≠ ""
  have hts : (setDefaultsService K s0).tlsMode = (if s0.tlsMode = "" then K.defaultTLSMode else s0.tlsMode) := rfl
  rw [hts]
  split_ifs with he
  · rw [hK]
    decide
  · exact he

/-- C6 (amended): if Validate accepts a Config, the service names are
pairwise distinct and every TLS mode is auto, off or the empty string
(Validate only checks a TLS mode when it is set); after SetDefaults, as
the loading pipeline always runs it, an accepted Config has every TLS
mode equal to auto or off. -/
theorem validate_names_tlsmode (net : NetChecks) (c : Config) (provider : String) (K : Constants)
    (hK : K.defaultTLSMode = "auto") :
    (Config.Validate net c provider = .ok () →
       (c.services.map (fun s => s.name)).Nodup ∧
       ∀ svc ∈ c.services, svc.tlsMode = "auto" ∨ svc.tlsMode = "off" ∨ svc.tlsMode = "") ∧
    (Config.Validate net (Config.setDefaults K c) provider = .ok () →
       ∀ svc ∈ (Config.setDefaults K c).services, svc.tlsMode = "auto" ∨ svc.tlsMode = "off") := by
  constructor
  · intro h
    obtain ⟨hnd, _, hval⟩ := checkServices_ok net c c.services [] (validate_ok_checkServices h)
    refine ⟨hnd, ?_⟩
    intro svc hsvc
    exact validateServiceRest_tls (validateService_rest_of_ok (hval svc hsvc))
  · intro h
    obtain ⟨_, _, hval⟩ := checkServices_ok net (Config.setDefaults K c) (Config.setDefaults K c).services [] (validate_ok_checkServices h)
    intro svc hsvc
    rcases validateServiceRest_tls (validateService_rest_of_ok (hval svc hsvc)) with ha | ho | he
    · exact Or.inl ha
    · exact Or.inr ho
    · exact absurd he (setDefaults_services_tls hK c svc hsvc)

theorem validate_names_tlsmode_witness :
    (cfgC6.services.map (fun s => s.name)).Nodup ∧
    ∀ svc ∈ cfgC6.services, svc.tlsMode = "auto" ∨ svc.tlsMode = "off" ∨ svc.tlsMode = "" := by
  exact (validate_names_tlsmode netAll cfgC6 "file" constW rfl).1 (by decide)

/-- C6 counterexample: a Config whose single service leaves tls_mode
unset (the empty string) passes Validate unchanged, because Validate
only checks a TLS mode when it is non-empty; so the claim that every
accepted Config has service TLS modes in the set containing auto and off
is false before SetDefaults runs. -/
theorem validate_allows_empty_tlsmode :
    Config.Validate netAll cfgC6 "file" = .ok () ∧
    ∃ svc ∈ cfgC6.services, ¬(svc.tlsMode = "auto" ∨ svc.tlsMode = "off") := by
  decide

theorem beqComm {α : Type _} [BEq α] [LawfulBEq α] (a b : α) : (a == b) = (b == a) := by
  by_cases h : a = b
  · subst h
    rfl
  · rw [beq_eq_false_iff_ne.mpr h, beq_eq_false_iff_ne.mpr (Ne.symm h)]

theorem lookupKey_self : ∀ {m : List (String × String)}, (m.map Prod.fst).Nodup →
    ∀ p ∈ m, lookupKey m p.1 = some p.2 := by
  intro m
  induction m with
  | nil => simp
  | cons q rest ih =>
    intro hnd p hp
    rw [List.map_cons, List.nodup_cons] at hnd
    rcases List.mem_cons.mp hp with rfl | hp'
    · unfold lookupKey
      rw [if_pos rfl]
    · unfold lookupKey
      by_cases hq : q.1 = p.1
      · exfalso
        exact hnd.1 (List.mem_map.mpr ⟨p, hp', hq.symm⟩)
      · rw [if_neg hq]
        exact ih hnd.2 p hp'

theorem mapsEqualB_refl {x : Option (List (String × String))}
    (h : ((x.getD []).map Prod.fst).Nodup) : mapsEqualB x x = true := by
  unfold mapsEqualB
  simp only [Bool.and_self]
  rw [List.all_eq_true]
  intro p hp
  rw [lookupKey_self h p hp]
  simp

theorem mapsEqualB_symm (x y : Option (List (String × String))) :
    mapsEqualB x y = mapsEqualB y x := by
  unfold mapsEqualB
  exact Bool.and_comm _ _

theorem slicesEqualB_symm (x y : Option (List String)) :
    slicesEqualB x y = slicesEqualB y x := by
  unfold slicesEqualB
  exact beqComm _ _

theorem svcEqual_refl_aux (a : Service)
    (h1 : ((a.upstreamHeaders.getD []).map Prod.fst).Nodup)
    (h2 : ((a.downstreamHeaders.getD []).map Prod.fst).Nodup) :
    ServiceConfigEqual a a = true := by
  unfold ServiceConfigEqual
  rw [mapsEqualB_refl h1, mapsEqualB_refl h2]
  simp [slicesEqualB]

theorem svcEqual_symm_aux (a b : Service) :
    ServiceConfigEqual a b = ServiceConfigEqual b a := by
  unfold ServiceConfigEqual
  rw [mapsEqualB_symm a.upstreamHeaders b.upstreamHeaders, mapsEqualB_symm a.downstreamHeaders b.downstreamHeaders, slicesEqualB_symm a.tags b.tags, slicesEqualB_symm a.removeUpstream b.removeUpstream, slicesEqualB_symm a.removeDownstream b.removeDownstream, beqComm a.name b.name, beqComm a.backendAddr b.backendAddr, beqComm a.whoisEnabled b.whoisEnabled, beqComm a.whoisTimeout b.whoisTimeout, beqComm a.tlsMode b.tlsMode, beqComm a.readHeaderTimeout b.readHeaderTimeout, beqComm a.writeTimeout b.writeTimeout, beqComm a.idleTimeout b.idleTimeout, beqComm a.responseHeaderTimeout b.responseHeaderTimeout, beqComm a.accessLog b.accessLog, beqComm a.maxRequestBodySize b.maxRequestBodySize, beqComm a.funnelEnabled b.funnelEnabled, beqComm a.ephemeral b.ephemeral, beqComm a.flushInterval b.flushInterval]

/-- C8: the reconciliation equality is reflexive (on Go values, whose
maps have unique keys), symmetric, cannot tell nil from empty maps and
slices (replacing nil by empty on both sides never changes the verdict),
and indeed equates a Service with its nil-to-empty normalization. -/
theorem serviceConfigEqual_props (a b : Service)
    (h1 : ((a.upstreamHeaders.getD []).map Prod.fst).Nodup)
    (h2 : ((a.downstreamHeaders.getD []).map Prod.fst).Nodup) :
    ServiceConfigEqual a a = true ∧
    ServiceConfigEqual a b = ServiceConfigEqual b a ∧
    ServiceConfigEqual a b = ServiceConfigEqual (nilToEmpty a) (nilToEmpty b) ∧
    ServiceConfigEqual a (nilToEmpty a) = true :=
  ⟨svcEqual_refl_aux a h1 h2, svcEqual_symm_aux a b, rfl, svcEqual_refl_aux (nilToEmpty a) h1 h2⟩

theorem serviceConfigEqual_props_witness :
    ServiceConfigEqual emptyService emptyService = true ∧
    ServiceConfigEqual emptyService svcTraversal = ServiceConfigEqual svcTraversal emptyService ∧
    ServiceConfigEqual emptyService svcTraversal = ServiceConfigEqual (nilToEmpty emptyService) (nilToEmpty svcTraversal) ∧
    ServiceConfigEqual emptyService (nilToEmpty emptyService) = true :=
  serviceConfigEqual_props emptyService svcTraversal (by decide) (by decide)

theorem mapInsert_fresh {m : List (String × String)} {k v : String}
    (h : ∀ p ∈ m, p.1 ≠ k) : mapInsert m k v = m ++ [(k, v)] := by
  have hneg : ¬(m.any (fun p => p.1 == k) = true) := by
    intro hc
    rcases List.any_eq_true.mp hc with ⟨p, hp, hpe⟩
    exact h p hp (by simpa using hpe)
  unfold mapInsert
  rw [if_neg hneg]

theorem startLoop_eq (start : Service → Option String) :
    ∀ (l : List Service) (acc : List (String × String)) (succ : Nat),
      (∀ s ∈ l, ∀ p ∈ acc, p.1 ≠ s.name) →
      (l.map (fun s => s.name)).Nodup →
      startLoop start acc succ l = (acc ++ failuresOf start l, succ + successCount start l) := by
  intro l
  induction l with
  | nil =>
    intro acc succ _ _
    simp [startLoop, failuresOf, successCount]
  | cons svc rest ih =>
    intro acc succ hdisj hnd
    rw [List.map_cons, List.nodup_cons] at hnd
    unfold startLoop
    cases hs : start svc with
    | some e =>
      show startLoop start (mapInsert acc svc.name e) succ rest = (acc ++ failuresOf start (svc :: rest), succ + successCount start (svc :: rest))
      rw [mapInsert_fresh (fun p hp => hdisj svc (List.mem_cons_self _ _) p hp)]
      rw [ih (acc ++ [(svc.name, e)]) succ ?hd hnd.2]
      · unfold failuresOf successCount
        rw [List.filterMap_cons, List.countP_cons]
        simp [hs, List.append_assoc]
      case hd =>
        intro s hs' p hp
        rcases List.mem_append.mp hp with hpa | hpb
        · exact hdisj s (List.mem_cons_of_mem _ hs') p hpa
        · have hpe : p = (svc.name, e) := by simpa using hpb
          rw [hpe]
          intro hcon
          exact hnd.1 (List.mem_map.mpr ⟨s, hs', hcon.symm⟩)
    | none =>
      show startLoop start acc (succ + 1) rest = (acc ++ failuresOf start (svc :: rest), succ + successCount start (svc :: rest))
      rw [ih acc (succ + 1) (fun s hs' p hp => hdisj s (List.mem_cons_of_mem _ hs') p hp) hnd.2]
      unfold failuresOf successCount
      rw [List.filterMap_cons, List.countP_cons]
      simp [hs]
      omega

theorem failuresOf_length (start : Service → Option String) (l : List Service) :
    (failuresOf start l).length + successCount start l = l.length := by
  induction l with
  | nil => simp [failuresOf, successCount]
  | cons svc rest ih =>
    unfold failuresOf successCount at ih ⊢
    rw [List.filterMap_cons, List.countP_cons]
    cases hs : start svc <;> simp [hs] <;> omega

theorem mem_failuresOf (start : Service → Option String) (l : List Service) (n v : String) :
    (n, v) ∈ failuresOf start l ↔ ∃ svc ∈ l, svc.name = n ∧ start svc = some v := by
  simp only [failuresOf, List.mem_filterMap, Option.map_eq_some', Prod.mk.injEq]
  constructor
  · rintro ⟨svc, hsvc, e, he, hn, hv⟩
    exact ⟨svc, hsvc, hn, hv ▸ he⟩
  · rintro ⟨svc, hsvc, hn, he⟩
    exact ⟨svc, hsvc, v, he, hn, rfl⟩

/-- C3: StartServices walks the configured services in order, collecting
per-service failures: it returns nil exactly when the list is non-empty
and every start succeeds; an empty list yields the Internal
no-services-configured error; otherwise it yields a ServiceStartupError
whose Total is the number of services, whose Successful and Failed sum
to Total, whose failures map holds exactly the names of the failed
services, and whose AllFailed is true exactly when nothing succeeded and
Total is positive.  Service names are assumed pairwise distinct, as
Validate guarantees for every configured list. -/
theorem startServices_aggregate (start : Service → Option String) (cfg : Config)
    (hnd : (cfg.services.map (fun s => s.name)).Nodup) :
    (StartServices start cfg = .ok () ↔ cfg.services ≠ [] ∧ ∀ svc ∈ cfg.services, start svc = none) ∧
    (cfg.services = [] → StartServices start cfg = .error (.internal "no services configured")) ∧
    (∀ e, StartServices start cfg = .error (.startup e) →
       e.total = cfg.services.length ∧
       e.successful + e.failed = cfg.services.length ∧
       (∀ n, (∃ v, (n, v) ∈ e.failures) ↔ ∃ svc ∈ cfg.services, svc.name = n ∧ start svc ≠ none) ∧
       (e.AllFailed = true ↔ e.successful = 0 ∧ 0 < e.total)) := by
  have hloop : startLoop start [] 0 cfg.services = (failuresOf start cfg.services, successCount start cfg.services) := by
    have h := startLoop_eq start cfg.services [] 0 (by intro s _ p hp; cases hp) hnd
    simpa using h
  have hSS : StartServices start cfg = (if cfg.services.length = 0 then .error (.internal "no services configured") else if (failuresOf start cfg.services).length ≠ 0 then .error (.startup ⟨cfg.services.length, successCount start cfg.services, (failuresOf start cfg.services).length, failuresOf start cfg.services⟩) else .ok ()) := by
    unfold StartServices
    rw [hloop]
  by_cases h0 : cfg.services.length = 0
  · have hnil : cfg.services = [] := List.length_eq_zero.mp h0
    rw [hSS, if_pos h0]
    refine ⟨?_, ?_, ?_⟩
    · constructor
      · intro hcon
        exact absurd hcon (by simp)
      · rintro ⟨hne, _⟩
        exact absurd hnil hne
    · intro _
      rfl
    · intro e he
      simp at he
  · rw [hSS, if_neg h0]
    by_cases hf : (failuresOf start cfg.services).length ≠ 0
    · rw [if_pos hf]
      refine ⟨?_, ?_, ?_⟩
      · constructor
        · intro hcon
          exact absurd hcon (by simp)
        · rintro ⟨hne, hall⟩
          exfalso
          apply hf
          have hempty : failuresOf start cfg.services = [] := by
            unfold failuresOf
            rw [List.filterMap_eq_nil]
            intro svc hsvc
            rw [hall svc hsvc]
            rfl
          rw [hempty]
          rfl
      · intro hnil
        exact absurd (by rw [hnil]; rfl : cfg.services.length = 0) h0
      · intro e he
        have he' : ServiceStartupError.mk cfg.services.length (successCount start cfg.services) (failuresOf start cfg.services).length (failuresOf start cfg.services) = e := by
          simpa using he
        rw [← he']
        refine ⟨rfl, ?_, ?_, ?_⟩
        · have hlen := failuresOf_length start cfg.services
          simp only []
          omega
        · intro n
          constructor
          · rintro ⟨v, hv⟩
            rcases (mem_failuresOf start cfg.services n v).mp hv with ⟨svc, hsvc, hn, hsome⟩
            refine ⟨svc, hsvc, hn, ?_⟩
            rw [hsome]
            simp
          · rintro ⟨svc, hsvc, hn, hne⟩
            rcases Option.ne_none_iff_exists'.mp hne with ⟨v, hv⟩
            exact ⟨v, (mem_failuresOf start cfg.services n v).mpr ⟨svc, hsvc, hn, hv⟩⟩
        · unfold ServiceStartupError.AllFailed
          simp [Nat.pos_iff_ne_zero]
    · rw [if_neg hf]
      push_neg at hf
      have hempty : failuresOf start cfg.services = [] := List.length_eq_zero.mp hf
      refine ⟨?_, ?_, ?_⟩
      · constructor
        · intro _
          refine ⟨fun hnil => h0 (by rw [hnil]; rfl), ?_⟩
          intro svc hsvc
          by_contra hne
          rcases Option.ne_none_iff_exists'.mp hne with ⟨v, hv⟩
          have hmem : (svc.name, v) ∈ failuresOf start cfg.services :=
            (mem_failuresOf start cfg.services svc.name v).mpr ⟨svc, hsvc, rfl, hv⟩
          rw [hempty] at hmem
          cases hmem
        · intro _
          rfl
      · intro hnil
        exact absurd (by rw [hnil]; rfl : cfg.services.length = 0) h0
      · intro e he
        exact absurd he (by simp)

theorem startServices_aggregate_witness :
    StartServices (fun _ => none) cfgC6 = .ok () := by
  have h := startServices_aggregate (fun _ => none) cfgC6 (by decide)
  exact h.1.mpr ⟨by decide, fun svc _ => rfl⟩

end Tsbridge
